import Mathlib

/-!
Verification of the configuration-access and calendar-conversion utilities of
`ublox_gps/include/ublox_gps/utils.hpp` (namespace `ublox_node`).

The C++ code is templated over integer types and compares values of
heterogeneous integer types with the built-in `<` / `>` operators, whose
meaning is fixed by C++'s integral promotions and usual arithmetic
conversions.  We therefore model a C++ integer type as a bit-width plus a
signedness flag, model the value conversion performed when an operand is
converted to another integer type (reduction modulo 2^width, then two's
complement reinterpretation for signed targets), and model the comparisons
used by `checkMin` / `checkRange` through the common type computed by the
usual arithmetic conversions.

The ROS parameter server is modelled as an association list from keys to
typed values (`getParam` with an `int` / `bool` / `std::vector<int>` output
argument succeeds only when the stored entry has that type, as in roscpp).
Functions that can throw `std::runtime_error` are modelled with `Except`,
the exception carrying the data that the C++ code streams into the message.
-/

namespace ublox_node

/-- A C++ integer type: bit width and signedness (e.g. `int` is 32-bit signed,
`uint8_t` is 8-bit unsigned). -/
structure CTy where
  bits : Nat
  signed : Bool
  deriving DecidableEq, Repr

/-- `std::numeric_limits<T>::lowest()` as a mathematical integer. -/
def CTy.min (t : CTy) : Int :=
  if t.signed then -((2 : Int) ^ (t.bits - 1)) else 0

/-- `std::numeric_limits<T>::max()` as a mathematical integer. -/
def CTy.max (t : CTy) : Int :=
  if t.signed then (2 : Int) ^ (t.bits - 1) - 1 else (2 : Int) ^ t.bits - 1

/-- `x` is representable in the C++ type `t`. -/
def CTy.inRange (t : CTy) (x : Int) : Prop :=
  t.min ≤ x ∧ x ≤ t.max

instance (t : CTy) (x : Int) : Decidable (t.inRange x) := by
  unfold CTy.inRange; infer_instance

/-- Conversion of an integer value to C++ type `t`: reduction modulo `2^bits`,
reinterpreted in two's complement when `t` is signed.  This is the value
produced by C++ integer conversions (modular for unsigned targets; for signed
targets this is the universal two's-complement behaviour, mandated since
C++20). -/
def CTy.conv (t : CTy) (x : Int) : Int :=
  let m := x % (2 : Int) ^ t.bits
  if t.signed = true ∧ (2 : Int) ^ (t.bits - 1) ≤ m then m - (2 : Int) ^ t.bits else m

/-- The C++ `int` type of the platform: 32-bit signed. -/
def intTy : CTy := ⟨32, true⟩

/-- Integral promotion: types of rank below `int` (width < 32 here; all their
values fit in `int`) are promoted to `int`; wider types are unchanged. -/
def promote (t : CTy) : CTy :=
  if t.bits < 32 then intTy else t

/-- The common type of C++'s usual arithmetic conversions applied to two
integer operands (after integral promotion).  Same signedness: the wider type.
Mixed signedness: the unsigned type if its rank is at least the signed type's,
otherwise the signed type (which, for the standard widths, represents every
value of the narrower unsigned type). -/
def commonTy (a b : CTy) : CTy :=
  let pa := promote a
  let pb := promote b
  if pa.signed = pb.signed then
    if pb.bits ≤ pa.bits then pa else pb
  else
    let s := if pa.signed then pa else pb
    let u := if pa.signed then pb else pa
    if s.bits ≤ u.bits then u else s

/-- The C++ expression `x < y` where `x` has type `ta` and `y` has type `tb`:
both operands are converted to the common type, then compared. -/
def cppLt (ta tb : CTy) (x y : Int) : Bool :=
  let c := commonTy ta tb
  decide (c.conv x < c.conv y)

/-- The C++ expression `x > y` where `x` has type `ta` and `y` has type `tb`. -/
def cppGt (ta tb : CTy) (x y : Int) : Bool :=
  let c := commonTy ta tb
  decide (c.conv y < c.conv x)

/-- The exceptions thrown by the utilities, carrying the data the C++ code
formats into the `std::runtime_error` message. -/
inductive Err where
  /-- `checkRange` failure: "Invalid settings: <name> must be in range [<mn>, <mx>]." -/
  | range (name : String) (mn mx : Int)
  /-- `checkMin` failure: "Invalid settings: <name> must be > <mn>". -/
  | minErr (name : String) (mn : Int)
  /-- "Required parameter '<name>' has the wrong type (expected bool)". -/
  | typeErr (name : String)
  deriving DecidableEq, Repr

/-- `checkMin(V val, T min, name)` (utils.hpp lines 44-51): throws when
`val < min` under the C++ comparison of a `V` against a `T`. -/
def checkMin (V T : CTy) (val mn : Int) (name : String) : Except Err Unit :=
  if cppLt V T val mn then Except.error (Err.minErr name mn) else Except.ok ()

/-- `checkRange(V val, T min, T max, name)` (utils.hpp lines 61-69): throws
when `val < min || val > max` under the C++ comparisons of a `V` against a
`T`. -/
def checkRange (V T : CTy) (val mn mx : Int) (name : String) : Except Err Unit :=
  if cppLt V T val mn || cppGt V T val mx then
    Except.error (Err.range name mn mx)
  else
    Except.ok ()

/-- The throwing condition `val < min || val > max` of the scalar
`checkRange`, as a boolean. -/
def scalarThrows (V T : CTy) (val mn mx : Int) : Bool :=
  cppLt V T val mn || cppGt V T val mx

/-- The loop body of the vector `checkRange` overload, carried out from index
`i`: element `i` is checked with parameter name `name ++ "[" ++ i ++ "]"`, and
the first failure propagates (the C++ loop throws out of the loop). -/
def checkRangeVecFrom (V T : CTy) (mn mx : Int) (name : String) :
    Nat → List Int → Except Err Unit
  | _, [] => Except.ok ()
  | i, x :: xs =>
    match checkRange V T x mn mx (name ++ "[" ++ toString i ++ "]") with
    | Except.error e => Except.error e
    | Except.ok _ => checkRangeVecFrom V T mn mx name (i + 1) xs

/-- `checkRange(std::vector<V> val, T min, T max, name)` (utils.hpp lines
79-86): checks each element in ascending index order with the indexed name. -/
def checkRangeVec (V T : CTy) (val : List Int) (mn mx : Int) (name : String) :
    Except Err Unit :=
  checkRangeVecFrom V T mn mx name 0 val

/-- A value held by the ROS parameter server: an XmlRpc int, bool, list of
ints, or some other XmlRpc type the utilities never read successfully. -/
inductive PValue where
  | int (v : Int)
  | bool (b : Bool)
  | intList (l : List Int)
  | other
  deriving DecidableEq, Repr

/-- The parameter server's dictionary, observed through key lookup. -/
abbrev Store := List (String × PValue)

/-- `node->getParam(key, int&)`: succeeds iff the key is present with an
integer value. -/
def getParamInt (store : Store) (key : String) : Option Int :=
  match store.lookup key with
  | some (PValue.int v) => some v
  | _ => none

/-- `node->getParam(key, bool&)`: succeeds iff the key is present with a
boolean value. -/
def getParamBool (store : Store) (key : String) : Option Bool :=
  match store.lookup key with
  | some (PValue.bool b) => some b
  | _ => none

/-- `node->getParam(key, std::vector<int>&)`: succeeds iff the key is present
with a list-of-integers value. -/
def getParamIntList (store : Store) (key : String) : Option (List Int) :=
  match store.lookup key with
  | some (PValue.intList l) => some l
  | _ => none

/-- `node->hasParam(key)`. -/
def hasParam (store : Store) (key : String) : Bool :=
  (store.lookup key).isSome

/-- `node->setParam(key, value)`: the new binding shadows (overwrites) any
previous one under lookup. -/
def setParam (store : Store) (key : String) (v : PValue) : Store :=
  (key, v) :: store

/-- `getRosUint<U>(node, key, U& u)` (utils.hpp lines 95-108) for `U` = `T`:
reads an `int`, checks it against `[lowest(U), max(U)]` via `checkRange`
(an `int` compared against two `U`s), then narrows with the cast `(U) param`.
Returns the `(found, u)` pair, `u` being the output argument (unchanged from
`u0` when the key is absent). -/
def getRosUint (T : CTy) (store : Store) (key : String) (u0 : Int) :
    Except Err (Bool × Int) :=
  match getParamInt store key with
  | none => Except.ok (false, u0)
  | some param =>
    match checkRange intTy T param (T.min) (T.max) key with
    | Except.error e => Except.error e
    | Except.ok _ => Except.ok (true, T.conv param)

/-- `getRosInt<I>(node, key, I& u)` (utils.hpp lines 154-167): identical body
to the scalar `getRosUint`. -/
def getRosInt (T : CTy) (store : Store) (key : String) (u0 : Int) :
    Except Err (Bool × Int) :=
  match getParamInt store key with
  | none => Except.ok (false, u0)
  | some param =>
    match checkRange intTy T param (T.min) (T.max) key with
    | Except.error e => Except.error e
    | Except.ok _ => Except.ok (true, T.conv param)

/-- `getRosUint<U,V>(node, key, U& u, V default_val)` (utils.hpp lines
118-123): delegates to the scalar form and assigns `u = default_val` (a `V`
converted to `U`) when the key was not found.  Returns the final value of
`u`. -/
def getRosUintDefault (T : CTy) (store : Store) (key : String)
    (u0 default_val : Int) : Except Err Int :=
  match getRosUint T store key u0 with
  | Except.error e => Except.error e
  | Except.ok (found, u) => Except.ok (if found then u else T.conv default_val)

/-- `getRosInt<U,V>(node, key, U& u, V default_val)` (utils.hpp lines
177-182): same shape as `getRosUintDefault`, delegating to `getRosInt`. -/
def getRosIntDefault (T : CTy) (store : Store) (key : String)
    (u0 default_val : Int) : Except Err Int :=
  match getRosInt T store key u0 with
  | Except.error e => Except.error e
  | Except.ok (found, u) => Except.ok (if found then u else T.conv default_val)

/-- `getRosUint<U>(node, key, std::vector<U>& u)` (utils.hpp lines 130-145):
reads a `std::vector<int>`, checks every element against
`[lowest(U), max(U)]`, then `u.insert(u.begin(), param.begin(), param.end())`
inserts the elements (each converted to `U`) at the FRONT of the caller's
vector `u0`. -/
def getRosUintVec (T : CTy) (store : Store) (key : String) (u0 : List Int) :
    Except Err (Bool × List Int) :=
  match getParamIntList store key with
  | none => Except.ok (false, u0)
  | some param =>
    match checkRangeVec intTy T param (T.min) (T.max) key with
    | Except.error e => Except.error e
    | Except.ok _ => Except.ok (true, param.map (T.conv) ++ u0)

/-- `getRosInt<I>(node, key, std::vector<I>& i)` (utils.hpp lines 189-204):
identical body to the vector `getRosUint`. -/
def getRosIntVec (T : CTy) (store : Store) (key : String) (u0 : List Int) :
    Except Err (Bool × List Int) :=
  match getParamIntList store key with
  | none => Except.ok (false, u0)
  | some param =>
    match checkRangeVec intTy T param (T.min) (T.max) key with
    | Except.error e => Except.error e
    | Except.ok _ => Except.ok (true, param.map (T.conv) ++ u0)

/-- `declareRosBoolean(node, name, default_value)` (utils.hpp lines 206-218):
seeds the key with `default_value` when absent, then reads it back, throwing
when the read fails (wrong type).  The C++ function is declared `bool` but
contains no `return` statement; this model returns the resulting store
together with the value `ret` that `getParam` wrote into the local variable
(the value the code observes). -/
def declareRosBoolean (store : Store) (name : String) (default_value : Bool) :
    Except Err (Store × Bool) :=
  let store1 := if hasParam store name then store
                else setParam store name (PValue.bool default_value)
  match getParamBool store1 name with
  | none => Except.error (Err.typeErr name)
  | some ret => Except.ok (store1, ret)

/-- Control-flow model of `declareRosBoolean`'s returned value: the body of
the C++ function contains no `return` statement at all, so a non-throwing
execution falls off the end of the `bool`-returning function without
producing a return value; we record the executed return value as
`Option Bool`, which is always `none` on the non-throwing paths. -/
def declareRosBooleanReturn (store : Store) (name : String)
    (default_value : Bool) : Except Err (Store × Option Bool) :=
  let store1 := if hasParam store name then store
                else setParam store name (PValue.bool default_value)
  match getParamBool store1 name with
  | none => Except.error (Err.typeErr name)
  | some _ => Except.ok (store1, none)

/-- `getRosBoolean(node, name)` (utils.hpp lines 220-229): reads a boolean,
throwing when the read fails (key absent or wrong type). -/
def getRosBoolean (store : Store) (name : String) : Except Err Bool :=
  match getParamBool store name with
  | none => Except.error (Err.typeErr name)
  | some ret => Except.ok ret

/-- Modelled from the spec: `mkgmtime` is declared in `ublox_gps/mkgmtime.h`,
which is not among the sources here; per §4.3 it converts the `struct tm`
calendar fields to seconds since 1970-01-01T00:00:00 UTC using proleptic
Gregorian rules, independent of the process's timezone.  `daysFromCivil` is
the day count from the epoch to year `y`, month `m` (1-12), day `d` (1-31). -/
def daysFromCivil (y m d : Int) : Int :=
  let yA : Int := if m ≤ 2 then y - 1 else y
  let era : Int := yA / 400
  let yoe : Int := yA - era * 400
  let mp : Int := if m ≤ 2 then m + 9 else m - 3
  let doy : Int := (153 * mp + 2) / 5 + d - 1
  let doe : Int := yoe * 365 + yoe / 4 - yoe / 100 + doy
  era * 146097 + doe - 719468

/-- The fields of `struct tm` that `toUtcSeconds` fills in. -/
structure Tm where
  tm_year : Int
  tm_mon : Int
  tm_mday : Int
  tm_hour : Int
  tm_min : Int
  tm_sec : Int
  deriving DecidableEq, Repr

/-- Modelled from the spec: `mkgmtime(&time)` on the filled `struct tm`
(`tm_year` = years since 1900, `tm_mon` = 0-11), per §4.3. -/
def mkgmtime (t : Tm) : Int :=
  daysFromCivil (1900 + t.tm_year) (t.tm_mon + 1) t.tm_mday * 86400
    + t.tm_hour * 3600 + t.tm_min * 60 + t.tm_sec

/-- The date/time fields of a NavPVT message that `toUtcSeconds` reads. -/
structure NavPVT where
  year : Int
  month : Int
  day : Int
  hour : Int
  min : Int
  sec : Int
  deriving DecidableEq, Repr

/-- `toUtcSeconds(msg)` (utils.hpp lines 21-35): fills a `struct tm`
(`tm_year = year - 1900`, `tm_mon = month - 1`, the rest verbatim) and calls
`mkgmtime`. -/
def toUtcSeconds (msg : NavPVT) : Int :=
  mkgmtime { tm_year := msg.year - 1900, tm_mon := msg.month - 1,
             tm_mday := msg.day, tm_hour := msg.hour, tm_min := msg.min,
             tm_sec := msg.sec }

/-!
Helper lemmas: value preservation of C++ integer conversions, and transfer of
range facts into the common comparison type.
-/

lemma CTy.conv_eq (t : CTy) (hb : 0 < t.bits) (x : Int) (hx : t.inRange x) :
    t.conv x = x := by
  obtain ⟨b, hbe⟩ : ∃ b, t.bits = b + 1 := ⟨t.bits - 1, by omega⟩
  have hp : (0 : Int) < 2 ^ b := pow_pos (by norm_num) b
  have hsu : (2 : Int) ^ t.bits = 2 ^ b * 2 := by rw [hbe, pow_succ]
  obtain ⟨hx1, hx2⟩ := hx
  unfold CTy.conv
  simp only
  rcases hs : t.signed with _ | _
  · -- unsigned
    simp only [CTy.min, CTy.max, hs, if_neg, Bool.false_eq_true, if_false] at hx1 hx2 ⊢
    have h0 : (0:Int) ≤ x := hx1
    have hlt : x < 2 ^ t.bits := by omega
    rw [Int.emod_eq_of_lt h0 hlt]
    simp
  · -- signed
    simp only [CTy.min, CTy.max, hs, if_true] at hx1 hx2
    rw [hbe] at hx1 hx2 ⊢
    simp only [Nat.add_sub_cancel] at hx1 hx2 ⊢
    have h2p : (2:Int) ^ (b+1) = 2 ^ b * 2 := pow_succ 2 b
    by_cases hneg : 0 ≤ x
    · have hm : x % (2:Int) ^ (b+1) = x := Int.emod_eq_of_lt hneg (by omega)
      rw [hm]
      rw [if_neg]
      simp only [not_and]
      intro
      omega
    · have hm : x % (2:Int) ^ (b+1) = x + 2 ^ (b+1) := by
        have : x + 2 ^ (b+1) = x + 2 ^ (b+1) * 1 := by ring
        rw [← Int.add_mul_emod_self_left (a := x) (b := (2:Int)^(b+1)) (c := 1)]
        rw [Int.emod_eq_of_lt (by omega) (by omega)]
        omega
      rw [hm, if_pos]
      · omega
      · exact ⟨by trivial, by omega⟩

lemma commonTy_bits (a b : CTy) : 32 ≤ (commonTy a b).bits := by
  have hpa : 32 ≤ (promote a).bits := by
    unfold promote intTy; split <;> simp_all <;> omega
  have hpb : 32 ≤ (promote b).bits := by
    unfold promote intTy; split <;> simp_all <;> omega
  unfold commonTy
  simp only
  split
  · split <;> assumption
  · split <;> split <;> assumption

lemma cppLt_eq (a b : CTy) (x y : Int)
    (hx : (commonTy a b).inRange x) (hy : (commonTy a b).inRange y) :
    cppLt a b x y = decide (x < y) := by
  have h32 := commonTy_bits a b
  unfold cppLt
  simp only
  rw [CTy.conv_eq _ (by omega) _ hx, CTy.conv_eq _ (by omega) _ hy]

lemma CTy.min_le_max (t : CTy) (hb : 0 < t.bits) : t.min ≤ t.max := by
  have hp : (0 : Int) < 2 ^ (t.bits - 1) := pow_pos (by norm_num) _
  have hq : (0 : Int) < 2 ^ t.bits := pow_pos (by norm_num) _
  unfold CTy.min CTy.max
  split_ifs <;> omega

lemma CTy.min_inRange (t : CTy) (hb : 0 < t.bits) : t.inRange (t.min) :=
  ⟨le_refl _, t.min_le_max hb⟩

lemma CTy.max_inRange (t : CTy) (hb : 0 < t.bits) : t.inRange (t.max) :=
  ⟨t.min_le_max hb, le_refl _⟩

lemma commonTy_intTy_eq (T : CTy) (hT : T.signed = true ∨ T.bits < 32) :
    commonTy intTy T = if T.bits ≤ 32 then intTy else T := by
  rcases T with ⟨tb, ts⟩
  unfold commonTy promote intTy
  rcases hT with h | h
  · simp only at h
    subst h
    dsimp only
    split_ifs <;> first | rfl | omega | simp_all
  · simp only at h
    dsimp only
    split_ifs <;> first | rfl | omega | simp_all

lemma intTy_inRange_iff (x : Int) :
    intTy.inRange x ↔ -2147483648 ≤ x ∧ x ≤ 2147483647 := by
  unfold CTy.inRange CTy.min CTy.max intTy
  norm_num

lemma inRange_of_intTy_wide (T : CTy) (h32 : 32 < T.bits) (hs : T.signed = true)
    (v : Int) (hv : intTy.inRange v) : T.inRange v := by
  rw [intTy_inRange_iff] at hv
  have h1 : (2 : Int) ^ 31 ≤ 2 ^ (T.bits - 1) :=
    pow_le_pow_right₀ (by norm_num) (by omega)
  have h2 : (2 : Int) ^ 31 = 2147483648 := by norm_num
  unfold CTy.inRange CTy.min CTy.max
  simp only [hs, if_true]
  omega

lemma inRange_intTy_of_small (T : CTy) (hT : T.signed = true ∨ T.bits < 32)
    (hsm : T.bits ≤ 32) (x : Int) (hx : T.inRange x) : intTy.inRange x := by
  rw [intTy_inRange_iff]
  unfold CTy.inRange CTy.min CTy.max at hx
  have h2 : (2 : Int) ^ 31 = 2147483648 := by norm_num
  rcases hT with h | h
  · have h1 : (2 : Int) ^ (T.bits - 1) ≤ 2 ^ 31 :=
      pow_le_pow_right₀ (by norm_num) (by omega)
    simp only [h, if_true] at hx
    omega
  · have h1 : (2 : Int) ^ T.bits ≤ 2 ^ 31 :=
      pow_le_pow_right₀ (by norm_num) (by omega)
    have h1b : (2 : Int) ^ (T.bits - 1) ≤ 2 ^ 31 :=
      pow_le_pow_right₀ (by norm_num) (by omega)
    have hp : (0 : Int) < 2 ^ (T.bits - 1) := pow_pos (by norm_num) _
    split_ifs at hx <;> omega

lemma inRange_common_val (T : CTy) (hT : T.signed = true ∨ T.bits < 32)
    (v : Int) (hv : intTy.inRange v) : (commonTy intTy T).inRange v := by
  rw [commonTy_intTy_eq T hT]
  split_ifs with h
  · exact hv
  · exact inRange_of_intTy_wide T (by omega) (by rcases hT with h1 | h1; exact h1; omega) v hv

lemma inRange_common_bound (T : CTy) (hb : 0 < T.bits)
    (hT : T.signed = true ∨ T.bits < 32)
    (x : Int) (hx : T.inRange x) : (commonTy intTy T).inRange x := by
  rw [commonTy_intTy_eq T hT]
  split_ifs with h
  · exact inRange_intTy_of_small T hT h x hx
  · exact hx

lemma cppGt_eq (a b : CTy) (x y : Int)
    (hx : (commonTy a b).inRange x) (hy : (commonTy a b).inRange y) :
    cppGt a b x y = decide (y < x) := by
  have h32 := commonTy_bits a b
  unfold cppGt
  simp only
  rw [CTy.conv_eq _ (by omega) _ hx, CTy.conv_eq _ (by omega) _ hy]

lemma checkRange_eq_ite (V T : CTy) (val mn mx : Int) (name : String) :
    checkRange V T val mn mx name =
      if scalarThrows V T val mn mx = true then
        Except.error (Err.range name mn mx)
      else Except.ok () := by
  unfold checkRange scalarThrows
  split_ifs <;> simp_all

lemma checkRange_intTy_good (T : CTy) (hb : 0 < T.bits)
    (hT : T.signed = true ∨ T.bits < 32) (v : Int) (hv : intTy.inRange v)
    (name : String) :
    checkRange intTy T v (T.min) (T.max) name =
      if T.inRange v then Except.ok ()
      else Except.error (Err.range name (T.min) (T.max)) := by
  have hcv := inRange_common_val T hT v hv
  have hcm := inRange_common_bound T hb hT _ (T.min_inRange hb)
  have hcx := inRange_common_bound T hb hT _ (T.max_inRange hb)
  unfold checkRange
  rw [cppLt_eq _ _ _ _ hcv hcm, cppGt_eq _ _ _ _ hcv hcx]
  unfold CTy.inRange
  simp only [Bool.or_eq_true, decide_eq_true_eq]
  split_ifs with h1 h2 h2 <;> first | rfl | omega

lemma scalarThrows_intTy_good (T : CTy) (hb : 0 < T.bits)
    (hT : T.signed = true ∨ T.bits < 32) (v : Int) (hv : intTy.inRange v) :
    scalarThrows intTy T v (T.min) (T.max) = decide (¬ T.inRange v) := by
  have hcv := inRange_common_val T hT v hv
  have hcm := inRange_common_bound T hb hT _ (T.min_inRange hb)
  have hcx := inRange_common_bound T hb hT _ (T.max_inRange hb)
  unfold scalarThrows
  rw [cppLt_eq _ _ _ _ hcv hcm, cppGt_eq _ _ _ _ hcv hcx]
  unfold CTy.inRange
  simp only [Bool.or_eq_true, decide_eq_true_eq, not_and, not_le]
  by_cases h1 : v < T.min <;> by_cases h2 : T.max < v <;> simp_all <;> omega

lemma checkRangeVecFrom_ok (V T : CTy) (mn mx : Int) (name : String) :
    ∀ (l : List Int) (i : Nat),
      (∀ x ∈ l, scalarThrows V T x mn mx = false) →
      checkRangeVecFrom V T mn mx name i l = Except.ok ()
  | [], _, _ => rfl
  | x :: xs, i, h => by
    have hx : scalarThrows V T x mn mx = false := h x (by simp)
    unfold checkRangeVecFrom
    rw [checkRange_eq_ite]
    simp only [hx, Bool.false_eq_true, if_false]
    exact checkRangeVecFrom_ok V T mn mx name xs (i + 1)
      (fun y hy => h y (by simp [hy]))

lemma checkRangeVecFrom_err (V T : CTy) (mn mx : Int) (name : String) (x : Int)
    (hx : scalarThrows V T x mn mx = true) :
    ∀ (p : List Int) (i : Nat) (rest : List Int),
      (∀ y ∈ p, scalarThrows V T y mn mx = false) →
      checkRangeVecFrom V T mn mx name i (p ++ x :: rest) =
        Except.error (Err.range (name ++ "[" ++ toString (i + p.length) ++ "]") mn mx)
  | [], i, rest, _ => by
    show checkRangeVecFrom V T mn mx name i (x :: rest) = _
    unfold checkRangeVecFrom
    rw [checkRange_eq_ite]
    simp [hx]
  | y :: p, i, rest, h => by
    have hy : scalarThrows V T y mn mx = false := h y (by simp)
    show checkRangeVecFrom V T mn mx name i (y :: (p ++ x :: rest)) = _
    unfold checkRangeVecFrom
    rw [checkRange_eq_ite]
    simp only [hy, Bool.false_eq_true, if_false]
    have hrec := checkRangeVecFrom_err V T mn mx name x hx p (i + 1) rest
      (fun z hz => h z (by simp [hz]))
    have harith : i + 1 + p.length = i + (y :: p).length := by
      simp [List.length_cons]; omega
    rw [hrec, harith]

/-!
Claim theorems.
-/

/-- C2 (amended): scalar `checkRange(v, lo, hi, name)` fails, with an error
carrying the name and the bound pair, if and only if `v < lo or v > hi` under
mathematical integer comparison, PROVIDED the value and both bounds are
representable in the common type produced by the C++ usual arithmetic
conversions of the two template parameter types (which holds in particular
whenever both types promote into `int`, or have the same signedness, or the
signed type is the wider one).  Without that proviso the comparison converts
a negative value to an unsigned type and the outcome can differ (see the
counterexample). -/
theorem checkRange_scalar_spec (V T : CTy) (val mn mx : Int) (name : String)
    (hval : (commonTy V T).inRange val) (hmn : (commonTy V T).inRange mn)
    (hmx : (commonTy V T).inRange mx) :
    (checkRange V T val mn mx name = Except.error (Err.range name mn mx) ↔
      (val < mn ∨ mx < val)) ∧
    (checkRange V T val mn mx name = Except.ok () ↔ (mn ≤ val ∧ val ≤ mx)) := by
  unfold checkRange
  rw [cppLt_eq _ _ _ _ hval hmn, cppGt_eq _ _ _ _ hval hmx]
  simp only [Bool.or_eq_true, decide_eq_true_eq]
  by_cases hc : val < mn ∨ mx < val
  · rw [if_pos hc]
    exact ⟨⟨fun _ => hc, fun _ => rfl⟩,
           ⟨fun h => (by cases h), fun h => (by omega)⟩⟩
  · rw [if_neg hc]
    exact ⟨⟨fun h => (by cases h), fun h => (by omega)⟩,
           ⟨fun _ => (by omega), fun _ => rfl⟩⟩

/-- Witness for C2: `checkRange<int, int8_t>(200, -128, 127)` fails with the
range error (the spec's §8 example value). -/
theorem checkRange_scalar_spec_inst :
    checkRange intTy ⟨8, true⟩ 200 (-128) 127 "p" =
      Except.error (Err.range "p" (-128) 127) :=
  (checkRange_scalar_spec intTy ⟨8, true⟩ 200 (-128) 127 "p"
    (by decide) (by decide) (by decide)).1.mpr (by norm_num)

/-- Counterexample for C2 as frozen: with value type `int` and bound type
`uint32_t`, the stored value `-1` is mathematically below the bound pair
`[0, 4294967295]`, yet `checkRange` does NOT fail: the C++ comparison
converts `-1` to `4294967295` before comparing.  The outcome of the
comparison is therefore changed by a conversion, refuting the claim's
universal wide-domain-comparison statement. -/
theorem checkRange_signed_unsigned_cex :
    checkRange intTy ⟨32, false⟩ (-1) 0 4294967295 "p" = Except.ok () ∧
    ((-1 : Int) < 0 ∨ (4294967295 : Int) < -1) := by
  constructor
  · rfl
  · norm_num

/-- C9 (amended): `checkMin(value, minimum, name)` fails, with an error
carrying the parameter name and the minimum, if and only if
`value < minimum` under mathematical comparison, PROVIDED value and minimum
are representable in the common type of the C++ usual arithmetic conversions
of the two template parameter types; a value equal to the minimum passes, and
on success the call returns unit (pure assertion).  Without the proviso a
negative value compared against an unsigned minimum of rank at least `int`
is wrapped before the comparison and can wrongly pass (see the
counterexample). -/
theorem checkMin_spec (V T : CTy) (val mn : Int) (name : String)
    (hval : (commonTy V T).inRange val) (hmn : (commonTy V T).inRange mn) :
    (checkMin V T val mn name = Except.error (Err.minErr name mn) ↔ val < mn) ∧
    (mn ≤ val → checkMin V T val mn name = Except.ok ()) := by
  unfold checkMin
  rw [cppLt_eq _ _ _ _ hval hmn]
  simp only [decide_eq_true_eq]
  by_cases hc : val < mn
  · rw [if_pos hc]
    exact ⟨⟨fun _ => hc, fun _ => rfl⟩, fun h => (by omega)⟩
  · rw [if_neg hc]
    exact ⟨⟨fun h => (by cases h), fun h => (by omega)⟩, fun _ => rfl⟩

/-- Witness for C9: a value equal to the minimum passes
(`checkMin<int, int8_t>(5, 5)` succeeds), and `checkMin<int, int8_t>(4, 5)`
fails with the error carrying the name and the minimum. -/
theorem checkMin_spec_inst :
    checkMin intTy ⟨8, true⟩ 5 5 "p" = Except.ok () ∧
    checkMin intTy ⟨8, true⟩ 4 5 "p" = Except.error (Err.minErr "p" 5) :=
  ⟨(checkMin_spec intTy ⟨8, true⟩ 5 5 "p" (by decide) (by decide)).2 (by norm_num),
   (checkMin_spec intTy ⟨8, true⟩ 4 5 "p" (by decide) (by decide)).1.mpr
     (by norm_num)⟩

/-- Counterexample for C9 as frozen: with value type `int` and minimum type
`uint32_t`, the value `-1` is mathematically below the minimum `0`, yet
`checkMin` does not fail: `-1` is converted to `4294967295` before the
comparison. -/
theorem checkMin_signed_unsigned_cex :
    checkMin intTy ⟨32, false⟩ (-1) 0 "p" = Except.ok () ∧ ((-1 : Int) < 0) := by
  constructor
  · rfl
  · norm_num

/-- C6: the vector `checkRange` applies the scalar check in ascending index
order.  If every element of the prefix `p` passes the scalar check and the
element `x` fails it, then on `p ++ x :: rest` the call fails with the range
error whose parameter name is the base name with the positional index of `x`
(namely `p.length`) appended as `name[i]` — for ANY `rest`, i.e. no element
after the first failing index influences the result.  If every element
passes, the call succeeds. -/
theorem checkRangeVec_first_failure (V T : CTy) (mn mx : Int) (name : String) :
    (∀ s : List Int, (∀ x ∈ s, scalarThrows V T x mn mx = false) →
      checkRangeVec V T s mn mx name = Except.ok ()) ∧
    (∀ (p : List Int) (x : Int) (rest : List Int),
      (∀ y ∈ p, scalarThrows V T y mn mx = false) →
      scalarThrows V T x mn mx = true →
      checkRangeVec V T (p ++ x :: rest) mn mx name =
        Except.error
          (Err.range (name ++ "[" ++ toString p.length ++ "]") mn mx)) := by
  constructor
  · intro s hs
    exact checkRangeVecFrom_ok V T mn mx name s 0 hs
  · intro p x rest hp hx
    have h := checkRangeVecFrom_err V T mn mx name x hx p 0 rest hp
    simpa using h

/-- Witness for C6: on `[1, 99, 2]` with bound pair `[0, 10]` (value type
`int`, bound type `uint8_t`), the check fails at index 1 with the name
`p[1]`, and the element after the failing index does not change the result. -/
theorem checkRangeVec_first_failure_inst :
    checkRangeVec intTy ⟨8, false⟩ ([1] ++ 99 :: [2]) 0 10 "p" =
      Except.error (Err.range ("p" ++ "[" ++ toString (List.length [(1 : Int)]) ++ "]") 0 10) :=
  (checkRangeVec_first_failure intTy ⟨8, false⟩ 0 10 "p").2 [1] 99 [2]
    (by decide) (by decide)

lemma map_conv_id (T : CTy) (hb : 0 < T.bits) :
    ∀ l : List Int, (∀ x ∈ l, T.inRange x) → l.map (T.conv) = l
  | [], _ => rfl
  | x :: xs, h => by
    simp only [List.map_cons]
    rw [CTy.conv_eq T hb x (h x (by simp)),
        map_conv_id T hb xs (fun y hy => h y (by simp [hy]))]

/-- C1 (amended): for every target type `T` that is signed or narrower than
`int` (in particular the 8/16-bit types the header documents), the scalar
`getRosUint` / `getRosInt` return found = false without failure when the key
is absent; when the key holds integer `v`, they fail with the range
validation error when `v` lies outside `[lowest(T), max(T)]` and otherwise
return found = true with the output set to `v` (the narrowing cast is
value-preserving because it happens after validation).  For unsigned `T` of
width ≥ 32 the claim is false: the bound comparison converts the `int` to
unsigned, a negative stored value passes, and the output wraps (see the
counterexample). -/
theorem getRosInteger_scalar_spec (T : CTy) (hb : 0 < T.bits)
    (hT : T.signed = true ∨ T.bits < 32) (store : Store) (key : String)
    (u0 v : Int) (hv : intTy.inRange v) :
    (getParamInt store key = none →
      getRosUint T store key u0 = Except.ok (false, u0) ∧
      getRosInt T store key u0 = Except.ok (false, u0)) ∧
    (getParamInt store key = some v →
      (T.inRange v →
        getRosUint T store key u0 = Except.ok (true, v) ∧
        getRosInt T store key u0 = Except.ok (true, v)) ∧
      (¬ T.inRange v →
        getRosUint T store key u0 = Except.error (Err.range key (T.min) (T.max)) ∧
        getRosInt T store key u0 = Except.error (Err.range key (T.min) (T.max)))) := by
  have heq : getRosInt T store key u0 = getRosUint T store key u0 := rfl
  refine ⟨fun h => ?_, fun h => ⟨fun hin => ?_, fun hout => ?_⟩⟩
  · have hu : getRosUint T store key u0 = Except.ok (false, u0) := by
      simp only [getRosUint, h]
    exact ⟨hu, heq.trans hu⟩
  · have hu : getRosUint T store key u0 = Except.ok (true, v) := by
      simp only [getRosUint, h, checkRange_intTy_good T hb hT v hv key,
        if_pos hin, CTy.conv_eq T hb v hin]
    exact ⟨hu, heq.trans hu⟩
  · have hu : getRosUint T store key u0 =
        Except.error (Err.range key (T.min) (T.max)) := by
      simp only [getRosUint, h, checkRange_intTy_good T hb hT v hv key,
        if_neg hout]
    exact ⟨hu, heq.trans hu⟩

/-- Witness for C1: `getInteger<int8_t>` on a stored value 100 returns 100
with found = true (both the unsigned- and the signed-named template). -/
theorem getRosInteger_scalar_spec_inst :
    getRosUint ⟨8, true⟩ [("k", PValue.int 100)] "k" 0 = Except.ok (true, 100) ∧
    getRosInt ⟨8, true⟩ [("k", PValue.int 100)] "k" 0 = Except.ok (true, 100) :=
  ((getRosInteger_scalar_spec ⟨8, true⟩ (by norm_num) (Or.inl rfl)
    [("k", PValue.int 100)] "k" 0 100 (by decide)).2 (by decide)).1 (by decide)

/-- Counterexample for C1 as frozen: for target type `uint32_t`, the stored
value `-1` is outside `[lowest(uint32_t), max(uint32_t)] = [0, 4294967295]`,
so the claim requires a validation failure; instead the call succeeds and
returns the value wrapped modulo 2^32. -/
theorem getRosUint_uint32_wrap_cex :
    getRosUint ⟨32, false⟩ [("k", PValue.int (-1))] "k" 0 =
      Except.ok (true, 4294967295) ∧
    ¬ CTy.inRange ⟨32, false⟩ (-1) := by
  constructor
  · rfl
  · decide

lemma commonTy_intTy (T : CTy) :
    commonTy intTy T = if T.bits < 32 then intTy else T := by
  rcases T with ⟨tb, ts⟩
  by_cases h32 : tb < 32
  · cases ts <;> simp [commonTy, promote, intTy, h32]
  · have hge : 32 ≤ tb := by omega
    by_cases heq : tb = 32
    · subst heq
      cases ts <;> simp [commonTy, promote, intTy]
    · cases ts <;> simp [commonTy, promote, intTy, h32, hge] <;> omega

lemma inRange_common_bound_all (T : CTy) (hb : 0 < T.bits) (x : Int)
    (hx : T.inRange x) : (commonTy intTy T).inRange x := by
  rw [commonTy_intTy T]
  split_ifs with h
  · exact inRange_intTy_of_small T (Or.inr h) (by omega) x hx
  · exact hx

lemma scalarThrows_pass_all (T : CTy) (hb : 0 < T.bits) (x : Int)
    (hx : T.inRange x) : scalarThrows intTy T x (T.min) (T.max) = false := by
  have hcx := inRange_common_bound_all T hb x hx
  have hcm := inRange_common_bound_all T hb _ (T.min_inRange hb)
  have hcM := inRange_common_bound_all T hb _ (T.max_inRange hb)
  unfold scalarThrows
  rw [cppLt_eq _ _ _ _ hcx hcm, cppGt_eq _ _ _ _ hcx hcM]
  simp only [Bool.or_eq_false_iff, decide_eq_false_iff_not, not_lt]
  exact ⟨hx.1, hx.2⟩

/-- C3 (amended): when the key holds a sequence of integers (each stored as
a C++ `int`) all inside the target type's representable range, the vector
`getRosUint` / `getRosInt` succeed with found = true for EVERY target type
`T` of positive width — an in-range element is nonnegative whenever `T` is
unsigned of width ≥ `int`, so the usual-arithmetic conversions preserve
every compared value — and the output vector is the stored sequence, in
source order and full length, PREPENDED to the prior contents of the
caller-supplied vector (the C++ code inserts at `u.begin()`).  The output
equals the stored sequence exactly only when the caller's vector was empty;
the frozen claim's "regardless of the prior contents" is refuted by the
counterexample. -/
theorem getRosInteger_vector_spec (T : CTy) (hb : 0 < T.bits)
    (store : Store) (key : String) (param u0 : List Int)
    (hp : getParamIntList store key = some param)
    (hall : ∀ x ∈ param, T.inRange x) (hint : ∀ x ∈ param, intTy.inRange x) :
    getRosUintVec T store key u0 = Except.ok (true, param ++ u0) ∧
    getRosIntVec T store key u0 = Except.ok (true, param ++ u0) := by
  have heq : getRosIntVec T store key u0 = getRosUintVec T store key u0 := rfl
  have hok : checkRangeVec intTy T param (T.min) (T.max) key = Except.ok () :=
    checkRangeVecFrom_ok intTy T (T.min) (T.max) key param 0
      (fun x hx => scalarThrows_pass_all T hb x (hall x hx))
  have h1 : getRosUintVec T store key u0 = Except.ok (true, param ++ u0) := by
    simp only [getRosUintVec, hp, checkRangeVec] at *
    simp only [hok, map_conv_id T hb param hall]
  exact ⟨h1, heq.trans h1⟩

/-- Witness for C3: stored `[1, 2]` with an empty caller vector yields
exactly `[1, 2]` for target type `uint8_t`. -/
theorem getRosInteger_vector_spec_inst :
    getRosUintVec ⟨8, false⟩ [("k", PValue.intList [1, 2])] "k" [] =
      Except.ok (true, [1, 2]) ∧
    getRosIntVec ⟨8, false⟩ [("k", PValue.intList [1, 2])] "k" [] =
      Except.ok (true, [1, 2]) :=
  getRosInteger_vector_spec ⟨8, false⟩ (by norm_num)
    [("k", PValue.intList [1, 2])] "k" [1, 2] [] (by decide) (by decide)
    (by decide)

/-- Counterexample for C3 as frozen: stored `[1, 2]` (all inside `uint8_t`
range) with a caller vector whose prior contents are `[7]` produces
`[1, 2, 7]`, not the stored sequence `[1, 2]`: the output does depend on the
prior contents. -/
theorem getRosUintVec_prepend_cex :
    getRosUintVec ⟨8, false⟩ [("k", PValue.intList [1, 2])] "k" [7] =
      Except.ok (true, [1, 2, 7]) ∧
    ([1, 2, 7] : List Int) ≠ [1, 2] := by
  constructor
  · rfl
  · decide

/-- C7: the default-taking `getRosUint` / `getRosInt` return the default
value when the key is absent, without raising and without validating the
default against `T`'s range (the default, being a `T` value per the spec
signature, is returned unchanged); when the underlying found/value form
returns a found value they return exactly that value, and they propagate any
of its failures unchanged. -/
theorem getRosInteger_default_spec (T : CTy) (hb : 0 < T.bits) (store : Store)
    (key : String) (u0 d : Int) (hd : T.inRange d) :
    (getParamInt store key = none →
      getRosUintDefault T store key u0 d = Except.ok d ∧
      getRosIntDefault T store key u0 d = Except.ok d) ∧
    (∀ w, getRosUint T store key u0 = Except.ok (true, w) →
      getRosUintDefault T store key u0 d = Except.ok w) ∧
    (∀ e, getRosUint T store key u0 = Except.error e →
      getRosUintDefault T store key u0 d = Except.error e) ∧
    (∀ w, getRosInt T store key u0 = Except.ok (true, w) →
      getRosIntDefault T store key u0 d = Except.ok w) ∧
    (∀ e, getRosInt T store key u0 = Except.error e →
      getRosIntDefault T store key u0 d = Except.error e) := by
  refine ⟨fun h => ?_, fun w hw => ?_, fun e he => ?_, fun w hw => ?_,
    fun e he => ?_⟩
  · have hu : getRosUint T store key u0 = Except.ok (false, u0) := by
      simp only [getRosUint, h]
    have hi : getRosInt T store key u0 = Except.ok (false, u0) := hu
    constructor
    · simp only [getRosUintDefault, hu, if_neg, Bool.false_eq_true, if_false,
        CTy.conv_eq T hb d hd]
    · simp only [getRosIntDefault, hi, if_neg, Bool.false_eq_true, if_false,
        CTy.conv_eq T hb d hd]
  · simp only [getRosUintDefault, hw, if_pos]
  · simp only [getRosUintDefault, he]
  · simp only [getRosIntDefault, hw, if_pos]
  · simp only [getRosIntDefault, he]

/-- Witness for C7: the spec's §8 example — `getInteger<uint16_t>` on an
absent key with default 5 returns 5 without raising. -/
theorem getRosInteger_default_spec_inst :
    getRosUintDefault ⟨16, false⟩ [] "missing" 0 5 = Except.ok 5 ∧
    getRosIntDefault ⟨16, false⟩ [] "missing" 0 5 = Except.ok 5 :=
  (getRosInteger_default_spec ⟨16, false⟩ (by norm_num) [] "missing" 0 5
    (by decide)).1 (by decide)

/-- C4: `toUtcSeconds` is a pure function of the six calendar fields (a
function of the `NavPVT` record by construction, with no environment
dependence in the model, mirroring the timezone-independent `mkgmtime`): it
returns 0 for 1970-01-01T00:00:00; it returns a negative value for every
field combination within the calendar field ranges whose date lies before
the epoch (equivalently, year ≤ 1969); and it accounts for the leap day of
February 2000 (year divisible by 400):
`toUtcSeconds(2000-03-01) = toUtcSeconds(2000-02-29) + 86400`. -/
theorem toUtcSeconds_spec :
    toUtcSeconds ⟨1970, 1, 1, 0, 0, 0⟩ = 0 ∧
    (∀ y mo d h mi s : Int, 1 ≤ mo → mo ≤ 12 → 1 ≤ d → d ≤ 31 →
      0 ≤ h → h ≤ 23 → 0 ≤ mi → mi ≤ 59 → 0 ≤ s → s ≤ 59 → y ≤ 1969 →
      toUtcSeconds ⟨y, mo, d, h, mi, s⟩ < 0) ∧
    toUtcSeconds ⟨2000, 3, 1, 0, 0, 0⟩ =
      toUtcSeconds ⟨2000, 2, 29, 0, 0, 0⟩ + 86400 := by
  refine ⟨by decide, ?_, by decide⟩
  intro y mo d h mi s h1 h2 h3 h4 h5 h6 h7 h8 h9 h10 hy
  simp only [toUtcSeconds, mkgmtime]
  rw [show (1900 : Int) + (y - 1900) = y from by ring,
      show mo - 1 + 1 = mo from by ring]
  have hd : daysFromCivil y mo d ≤ -1 := by
    simp only [daysFromCivil]
    split_ifs with hsp <;> omega
  omega

/-- Witness for C4: the last second before the epoch,
1969-12-31T23:59:59, maps to a negative value. -/
theorem toUtcSeconds_spec_inst :
    toUtcSeconds ⟨1969, 12, 31, 23, 59, 59⟩ < 0 :=
  toUtcSeconds_spec.2.1 1969 12 31 23 59 59 (by norm_num) (by norm_num)
    (by norm_num) (by norm_num) (by norm_num) (by norm_num) (by norm_num)
    (by norm_num) (by norm_num) (by norm_num) (by norm_num)

/-- C5: `declareRosBoolean` writes the default into the store only when the
key is absent, then reads the key back, failing when the stored value is not
boolean-typed.  Consequently, on an initially absent key, a first call with
default `d1` seeds the store, and a second call with any default `d2` leaves
the store unchanged and observes `d1` (the value written by the first call),
not its own default. -/
theorem declareRosBoolean_spec (store : Store) (name : String)
    (d1 d2 : Bool) (v : PValue) :
    (store.lookup name = none →
      declareRosBoolean store name d1 =
        Except.ok (setParam store name (PValue.bool d1), d1) ∧
      declareRosBoolean (setParam store name (PValue.bool d1)) name d2 =
        Except.ok (setParam store name (PValue.bool d1), d1)) ∧
    (store.lookup name = some v →
      declareRosBoolean store name d1 =
        match v with
        | PValue.bool b => Except.ok (store, b)
        | _ => Except.error (Err.typeErr name)) := by
  constructor
  · intro h
    constructor
    · simp [declareRosBoolean, hasParam, setParam, getParamBool, h,
        List.lookup]
    · simp [declareRosBoolean, hasParam, setParam, getParamBool,
        List.lookup]
  · intro h
    cases v <;> simp [declareRosBoolean, hasParam, getParamBool, h]

/-- Witness for C5: on the empty store, declaring "k" with default `true`
seeds the store; a second declaration with default `false` leaves the store
unchanged and observes `true`. -/
theorem declareRosBoolean_spec_inst :
    declareRosBoolean [] "k" true =
      Except.ok ([("k", PValue.bool true)], true) ∧
    declareRosBoolean [("k", PValue.bool true)] "k" false =
      Except.ok ([("k", PValue.bool true)], true) :=
  (declareRosBoolean_spec [] "k" true false PValue.other).1 rfl

/-- C8: `getRosBoolean` raises the descriptive wrong-type error naming the
parameter exactly when the key is absent from the store or the stored value
is not boolean-typed; otherwise it returns the stored boolean value
unchanged. -/
theorem getRosBoolean_spec (store : Store) (name : String) (v : PValue) :
    (store.lookup name = none →
      getRosBoolean store name = Except.error (Err.typeErr name)) ∧
    (store.lookup name = some v →
      getRosBoolean store name =
        match v with
        | PValue.bool b => Except.ok b
        | _ => Except.error (Err.typeErr name)) := by
  constructor
  · intro h
    simp [getRosBoolean, getParamBool, h]
  · intro h
    cases v <;> simp [getRosBoolean, getParamBool, h]

/-- Witness for C8: a stored boolean is returned unchanged, and an absent
key raises the wrong-type error naming the parameter. -/
theorem getRosBoolean_spec_inst :
    getRosBoolean [("k", PValue.bool true)] "k" = Except.ok true ∧
    getRosBoolean [] "missing" = Except.error (Err.typeErr "missing") :=
  ⟨(getRosBoolean_spec [("k", PValue.bool true)] "k" (PValue.bool true)).2
      (by decide),
   (getRosBoolean_spec [] "missing" PValue.other).1 rfl⟩

/-- C10: the claim states what the `bool` declaration of
`declareRosBoolean` promises — every non-throwing execution returns a
well-defined boolean — but the function body contains no `return` statement
on any path.  A non-throwing execution (here: seeding the absent key "k"
with default `true`) completes with no executed return statement (`none` in
the control-flow model): the code falls off the end of a non-void function,
which is undefined behaviour in C++, contradicting the declared return type
(compare `getRosBoolean`, which does `return ret`). -/
theorem declareRosBoolean_missing_return :
    declareRosBooleanReturn [] "k" true =
      Except.ok ([("k", PValue.bool true)], none) := rfl

end ublox_node
